import Mathlib

/-!
Shallow embedding of the `cache-manager-better-sqlite3` adapter
(`SqliteCacheAdapter`, src/index.ts as published in the package).

The SQLite table `S(key TEXT PRIMARY KEY, val BLOB, created_at INTEGER,
expire_at INTEGER)` is modelled as a `List Row` in rowid (insertion) order.
Nullable columns are `Option`; serialized payloads are modelled as `String`
(JavaScript falsiness of the empty payload is captured explicitly).
Time is an `Int` millisecond timestamp passed explicitly where the source
calls `now()`.
-/

namespace SqliteStore

/-- A row of the cache table: `key TEXT PRIMARY KEY, val BLOB,
created_at INTEGER, expire_at INTEGER`.  `val`, `created_at` and `expire_at`
are nullable columns, hence `Option`. -/
structure Row where
  key : String
  val : Option String
  created_at : Option Int
  expire_at : Option Int
  deriving Repr, DecidableEq

/-- `SELECT * FROM t WHERE key = ?`: the PRIMARY KEY constraint makes the
first match the only match. -/
def findRow (t : List Row) (k : String) : Option Row :=
  t.find? (fun r => r.key == k)

/-- One result row of the CTE left join built by `SelectKeysStatementFn`:
the requested key together with the joined columns of the matching stored
row, all of them NULL when no stored row matched. -/
structure JoinedRow where
  key : String
  val : Option String
  created_at : Option Int
  expire_at : Option Int
  deriving Repr, DecidableEq

/-- The left join `FROM getKeys LEFT JOIN t ON t.key = getKeys.key` for a
single requested key. -/
def joinKey (t : List Row) (k : String) : JoinedRow :=
  match findRow t k with
  | some r => ⟨k, r.val, r.created_at, r.expire_at⟩
  | none => ⟨k, none, none, none⟩

/-- Failure of the storage engine to prepare a statement. -/
inductive SqlError
  | syntaxError
  deriving Repr, DecidableEq

/-- `#fetchAll(keys)`: prepares `SelectKeysStatementFn(keys, name)` and runs
it.  The statement builds one `(?)` placeholder row per key; with an empty
key list it reads `WITH getKeys(key) AS (VALUES )`, which the engine rejects
with a syntax error at prepare time, so the call fails instead of returning
rows. -/
def fetchAll (t : List Row) (ks : List String) : Except SqlError (List JoinedRow) :=
  if ks.isEmpty then .error .syntaxError
  else .ok (ks.map (joinKey t))

/-- JavaScript truthiness of a nullable payload: `null` and the empty string
are falsy, everything else is truthy. -/
def truthyStr : Option String → Bool
  | none => false
  | some s => s != ""

/-- The per-slot freshness test of `mget`:
`r.expire_at !== null && r.expire_at > ts && r.val`. -/
def mgetFresh (ts : Int) (r : JoinedRow) : Bool :=
  (match r.expire_at with
   | some e => decide (ts < e)
   | none => false) && truthyStr r.val

/-- The sweep trigger test of `mget`:
`r.expire_at !== null && r.expire_at < ts`. -/
def rowExpired (ts : Int) (r : JoinedRow) : Bool :=
  match r.expire_at with
  | some e => decide (e < ts)
  | none => false

/-- `mget(...keys)` at time `ts`: fetch every key through the left join,
schedule a purge when some fetched row is expired, and map each fetched row
to its deserialized value or `undefined`.  Returns the slots together with
the sweep-scheduled flag. -/
def mget {V : Type} (deser : String → V) (t : List Row) (ts : Int)
    (ks : List String) : Except SqlError (List (Option V) × Bool) :=
  (fetchAll t ks).map (fun rows =>
    (rows.map (fun r => if mgetFresh ts r then r.val.map deser else none),
     rows.any (rowExpired ts)))

/-- The value `mget` produces for the slot of key `k`. -/
def mgetSlot {V : Type} (deser : String → V) (t : List Row) (ts : Int)
    (k : String) : Option V :=
  if mgetFresh ts (joinKey t k) then (joinKey t k).val.map deser else none

/-- `get(key)` at time `ts`: absent when the row is missing, when
`expire_at` is null or `0`, or when `val` is null or empty
(`!row || !row.expire_at || !row.val`); an expired row (`expire_at < ts`)
schedules a purge and is absent; otherwise the value is deserialized.
Returns the result together with the sweep-scheduled flag. -/
def get {V : Type} (deser : String → V) (t : List Row) (ts : Int)
    (k : String) : Option V × Bool :=
  match findRow t k with
  | none => (none, false)
  | some r =>
    match r.expire_at, r.val with
    | some e, some v =>
      if e == 0 || v == "" then (none, false)
      else if e < ts then (none, true)
      else (some (deser v), false)
    | some _, none => (none, false)
    | none, _ => (none, false)

/-- The configured default TTL: `24 * 60 * 60` ("TTL in seconds" per the
source comment). -/
def default_ttl : Int := 24 * 60 * 60

/-- An error thrown inside the `mset` transaction: the cacheability gate
throws `new Error` whose message embeds the offending value, and the
serializer's own exception propagates unchanged. -/
inductive MsetError (V : Type)
  | notCacheable (v : V)
  | serializeFailed
  deriving Repr, DecidableEq

/-- `INSERT OR REPLACE INTO t(key, val, created_at, expire_at)`: any
conflicting row is deleted and the new row inserted with a fresh rowid,
hence at the end in rowid order. -/
def upsert (t : List Row) (r : Row) : List Row :=
  (t.filter (fun x => x.key != r.key)) ++ [r]

/-- The body of the `mset` transaction: for each pair in order, the
cacheability gate may throw, then the value is serialized (a serializer
failure propagates), then the row is upserted with the batch-wide
`created_at = ts` and `expire_at = expire`. -/
def msetLoop {V : Type} (ser : V → Except Unit String)
    (isCacheable : Option (V → Bool)) (ts expire : Int)
    (pairs : List (String × V)) (t : List Row) :
    Except (MsetError V) (List Row) :=
  match pairs with
  | [] => .ok t
  | (k, v) :: rest =>
    if (match isCacheable with | some p => !(p v) | none => false) then
      .error (.notCacheable v)
    else
      match ser v with
      | .error _ => .error .serializeFailed
      | .ok s =>
        msetLoop ser isCacheable ts expire rest
          (upsert t ⟨k, some s, some ts, some expire⟩)

/-- `mset(args, keyTTL?)` at time `ts`: a single `ttl = keyTTL ?? default`,
a single `expire = ts + ttl` (note: the source adds `ttl` to the
millisecond timestamp without any unit conversion), and one transaction
over all pairs; when the transaction body throws, the engine rolls it back
and the table is left unchanged. -/
def mset {V : Type} (ser : V → Except Unit String)
    (isCacheable : Option (V → Bool)) (defaultTTL : Int)
    (keyTTL : Option Int) (ts : Int) (pairs : List (String × V))
    (t : List Row) : Option (MsetError V) × List Row :=
  let ttl := keyTTL.getD defaultTTL
  let expire := ts + ttl
  match msetLoop ser isCacheable ts expire pairs t with
  | .error e => (some e, t)
  | .ok t' => (none, t')

/-- The result of `ttl(key)`: `Infinity` or a finite number of
milliseconds. -/
inductive TtlResult
  | inf
  | ms (n : Int)
  deriving Repr, DecidableEq

/-- `ttl(key)` at time `ts`: fetch the single key through the left join;
`Infinity` when no rows came back or the first row's `expire_at` is null,
otherwise `expire_at - now()`. -/
def ttl (t : List Row) (k : String) (ts : Int) : Except SqlError TtlResult :=
  (fetchAll t [k]).map (fun rows =>
    match rows with
    | [] => .inf
    | r :: _ =>
      match r.expire_at with
      | none => .inf
      | some e => .ms (e - ts))

/-- The SQL predicate `expire_at < ?`: a NULL `expire_at` compares to NULL,
which is not true, so NULL rows never match. -/
def sqlLtExpire (e : Option Int) (ts : Int) : Bool :=
  match e with
  | some x => decide (x < ts)
  | none => false

/-- `#purgeExpired()`: `DELETE FROM t WHERE expire_at < now()` over the
whole key-value space. -/
def purgeExpired (t : List Row) (ts : Int) : List Row :=
  t.filter (fun r => !(sqlLtExpire r.expire_at ts))

/-- ASCII lower-casing as applied by the engine's default `LIKE` (only the
letters A–Z fold). -/
def asciiLower (c : Char) : Char :=
  if 'A' ≤ c && c ≤ 'Z' then Char.ofNat (c.toNat + 32) else c

/-- The engine's `LIKE` matcher: `%` matches any sequence (including the
empty one), `_` matches any single character, and any other pattern
character matches ASCII case-insensitively. -/
def likeMatch : List Char → List Char → Bool
  | [], s => s.isEmpty
  | '%' :: ps, s => s.tails.any (fun suf => likeMatch ps suf)
  | '_' :: ps, s =>
    match s with
    | [] => false
    | _ :: cs => likeMatch ps cs
  | p :: ps, s =>
    match s with
    | [] => false
    | c :: cs => (asciiLower p == asciiLower c) && likeMatch ps cs

/-- `ORDER BY created_at` comparison (ascending, NULLs first), as a Bool. -/
def createdLe (a b : Row) : Bool :=
  match a.created_at, b.created_at with
  | none, _ => true
  | some _, none => false
  | some x, some y => decide (x ≤ y)

/-- `ORDER BY created_at` comparison as a relation. -/
def createdLeP (a b : Row) : Prop := createdLe a b = true

instance : DecidableRel createdLeP := fun a b => by
  unfold createdLeP; infer_instance

instance : IsTotal Row createdLeP := by
  constructor
  intro a b
  unfold createdLeP createdLe
  rcases a.created_at with _ | x <;> rcases b.created_at with _ | y <;> simp <;> omega

instance : IsTrans Row createdLeP := by
  constructor
  intro a b c
  unfold createdLeP createdLe
  rcases a.created_at with _ | x <;> rcases b.created_at with _ | y <;>
    rcases c.created_at with _ | z <;> simp <;> omega

/-- The engine's `ORDER BY created_at` on a result set. -/
def sortByCreated (l : List Row) : List Row := l.insertionSort createdLeP

/-- `keys(pattern?)`: a truthy pattern runs
`SELECT key FROM t WHERE key LIKE ? ORDER BY created_at`; an omitted
pattern — or the empty string, which is falsy in JavaScript — runs
`SELECT key FROM t` over every row. -/
def keys (t : List Row) (pattern : Option String) : List String :=
  match pattern with
  | some p =>
    if p == "" then t.map Row.key
    else (sortByCreated (t.filter
        (fun r => likeMatch p.toList r.key.toList))).map Row.key
  | none => t.map Row.key

/-! ### Helper lemmas -/

/-- A nonempty key list prepares and runs the left-join statement. -/
theorem fetchAll_cons (t : List Row) (k : String) (ks : List String) :
    fetchAll t (k :: ks) = .ok ((k :: ks).map (joinKey t)) := rfl

/-- The left join pads a missing key with NULL columns. -/
theorem joinKey_missing (t : List Row) (k : String) (h : findRow t k = none) :
    joinKey t k = ⟨k, none, none, none⟩ := by
  unfold joinKey; rw [h]

/-- The left join copies the columns of the matching stored row. -/
theorem joinKey_found (t : List Row) (k : String) (r : Row)
    (h : findRow t k = some r) :
    joinKey t k = ⟨k, r.val, r.created_at, r.expire_at⟩ := by
  unfold joinKey; rw [h]

/-- Closed form of `ttl`: the single-key left join always yields one row. -/
theorem ttl_run (t : List Row) (k : String) (ts : Int) :
    ttl t k ts = .ok (match (joinKey t k).expire_at with
                      | none => .inf
                      | some e => .ms (e - ts)) := rfl

/-! ### C8 -/

/-- C8 counterexample: `mget` with an empty key list does not return an
empty sequence; the generated statement (`VALUES` with no rows) fails to
prepare and the call errors. -/
theorem mget_empty_counterexample :
    mget (fun s => s) ([] : List Row) 0 [] = .error .syntaxError := rfl

/-- C8 (amended): `mget` with an empty key list builds
`WITH getKeys(key) AS (VALUES )`, which the engine rejects at prepare time,
so the call always fails with a syntax error instead of returning an empty
sequence. -/
theorem mget_empty_always_errors {V : Type} (deser : String → V)
    (t : List Row) (ts : Int) :
    mget deser t ts [] = .error .syntaxError := rfl

/-! ### C1 -/

/-- C1 counterexample: for the empty input key sequence, `mget` does not
return a sequence of the same length (it fails with a prepare error), so
the claim does not hold for every key sequence. -/
theorem mget_empty_on_nonempty_table_fails :
    mget (fun s => s) [⟨"a", some "pay", some 1, some 1000⟩] 5 [] =
      .error .syntaxError := rfl

/-- C1 (amended to nonempty key sequences): for every nonempty sequence of
input keys (duplicates allowed), `mget` returns a sequence of exactly the
same length whose i-th slot is computed from the i-th key alone (request
order); a key with no stored row fills its slot with `undefined`, and each
occurrence of a duplicated key gets its own independently filled slot. -/
theorem mget_request_order {V : Type} (deser : String → V) (t : List Row)
    (ts : Int) (ks : List String) (h : ks ≠ []) :
    ∃ slots b, mget deser t ts ks = .ok (slots, b) ∧
      slots.length = ks.length ∧
      (∀ i : Nat, slots[i]? = ks[i]?.map (mgetSlot deser t ts)) ∧
      (∀ k, findRow t k = none → mgetSlot deser t ts k = none) := by
  obtain ⟨a, l, rfl⟩ : ∃ a l, ks = a :: l := by
    cases ks with
    | nil => exact absurd rfl h
    | cons a l => exact ⟨a, l, rfl⟩
  refine ⟨((a :: l).map (joinKey t)).map
            (fun r => if mgetFresh ts r then r.val.map deser else none),
          ((a :: l).map (joinKey t)).any (rowExpired ts), rfl, ?_, ?_, ?_⟩
  · simp
  · intro i
    simp only [List.map_map, List.getElem?_map]
    rfl
  · intro k hk
    unfold mgetSlot
    rw [joinKey_missing t k hk]
    simp [mgetFresh, truthyStr]

/-- C1 witness: a concrete three-key request with a duplicate and a missing
key. -/
theorem mget_request_order_witness :
    (["a", "zz", "a"] : List String) ≠ [] ∧
    (∃ slots b,
      mget (fun s => s) [⟨"a", some "pay", some 1, some 1000⟩] 5
          ["a", "zz", "a"] = .ok (slots, b) ∧
      slots.length = (["a", "zz", "a"] : List String).length ∧
      (∀ i : Nat, slots[i]? = ((["a", "zz", "a"] : List String))[i]?.map
        (mgetSlot (fun s => s) [⟨"a", some "pay", some 1, some 1000⟩] 5)) ∧
      (∀ k, findRow [⟨"a", some "pay", some 1, some 1000⟩] k = none →
        mgetSlot (fun s => s) [⟨"a", some "pay", some 1, some 1000⟩] 5 k = none)) :=
  ⟨List.cons_ne_nil _ _,
   mget_request_order (fun s => s) _ 5 _ (List.cons_ne_nil _ _)⟩

/-! ### C7 -/

/-- C7: `ttl(k)` returns `Infinity` both when no row for `k` exists and when
a row exists with NULL `expire_at`; when a row with a non-null `expire_at`
exists it returns `expire_at - now` in milliseconds. -/
theorem ttl_spec (t : List Row) (k : String) (ts : Int) :
    (findRow t k = none → ttl t k ts = .ok .inf) ∧
    (∀ r, findRow t k = some r → r.expire_at = none →
       ttl t k ts = .ok .inf) ∧
    (∀ r e, findRow t k = some r → r.expire_at = some e →
       ttl t k ts = .ok (.ms (e - ts))) := by
  refine ⟨?_, ?_, ?_⟩
  · intro h
    rw [ttl_run, joinKey_missing t k h]
  · intro r hr he
    rw [ttl_run, joinKey_found t k r hr]
    simp [he]
  · intro r e hr he
    rw [ttl_run, joinKey_found t k r hr]
    simp [he]

/-- C7 witness: a never-expiring row, an absent key and a finite-TTL row. -/
theorem ttl_spec_witness :
    ttl [⟨"n", some "v", some 1, none⟩, ⟨"f", some "v", some 1, some 500⟩]
      "zz" 100 = .ok .inf ∧
    ttl [⟨"n", some "v", some 1, none⟩, ⟨"f", some "v", some 1, some 500⟩]
      "n" 100 = .ok .inf ∧
    ttl [⟨"n", some "v", some 1, none⟩, ⟨"f", some "v", some 1, some 500⟩]
      "f" 100 = .ok (.ms (500 - 100)) :=
  ⟨(ttl_spec _ "zz" 100).1 (by decide),
   (ttl_spec _ "n" 100).2.1 ⟨"n", some "v", some 1, none⟩ (by decide) rfl,
   (ttl_spec _ "f" 100).2.2 ⟨"f", some "v", some 1, some 500⟩ 500 (by decide) rfl⟩

/-! ### C10 -/

/-- C10 counterexample: at `expire_at = now` (a dead row per the claim's
`expire_at <= now`), `ttl` returns `0`, which is not a negative number. -/
theorem ttl_boundary_not_negative :
    ttl [⟨"k", some "v", some 1, some 100⟩] "k" 100 = .ok (.ms 0) ∧
    ¬ ((0 : Int) < 0) :=
  ⟨rfl, by omega⟩

/-- C10 (amended): `ttl` applies no freshness filter — for a stored row with
non-null `expire_at ≤ now` it returns the non-positive number
`expire_at - now` (strictly negative when `expire_at < now`), never the
unbounded indicator, so a dead-but-unswept row is observable through
`ttl`. -/
theorem ttl_exposes_expired_rows (t : List Row) (k : String) (ts : Int)
    (r : Row) (e : Int) (hr : findRow t k = some r)
    (he : r.expire_at = some e) (hle : e ≤ ts) :
    ttl t k ts = .ok (.ms (e - ts)) ∧ e - ts ≤ 0 ∧
      (e < ts → e - ts < 0) ∧ ttl t k ts ≠ .ok .inf := by
  have h1 : ttl t k ts = .ok (.ms (e - ts)) := by
    rw [ttl_run, joinKey_found t k r hr]
    simp [he]
  refine ⟨h1, by omega, by omega, ?_⟩
  rw [h1]
  simp

/-- C10 witness: a row that expired 60 ms before the read. -/
theorem ttl_exposes_expired_rows_witness :
    ttl [⟨"k", some "v", some 1, some 40⟩] "k" 100 = .ok (.ms (40 - 100)) ∧
    (40 : Int) - 100 ≤ 0 ∧ ((40 : Int) < 100 → (40 : Int) - 100 < 0) ∧
    ttl [⟨"k", some "v", some 1, some 40⟩] "k" 100 ≠ .ok .inf :=
  ttl_exposes_expired_rows _ "k" 100 ⟨"k", some "v", some 1, some 40⟩ 40
    (by decide) rfl (by omega)

/-! ### C2 -/

/-- C2 counterexample: a stored row with NULL `expire_at` ("never expires")
is returned as absent by both `get` and each `mget` slot, and `get` does
return a row whose `expire_at` equals `now` (the claim demands the opposite
on both counts). -/
theorem read_null_expire_counterexample :
    findRow [⟨"a", some "v", some 1, none⟩] "a" =
      some ⟨"a", some "v", some 1, none⟩ ∧
    (get (fun s => s) [⟨"a", some "v", some 1, none⟩] 100 "a").1 = none ∧
    mgetSlot (fun s => s) [⟨"a", some "v", some 1, none⟩] 100 "a" = none ∧
    (get (fun s => s) [⟨"b", some "w", some 1, some 100⟩] 100 "b").1 =
      some "w" :=
  ⟨rfl, rfl, rfl, rfl⟩

/-- C2 (amended): `get` returns the deserialized stored value exactly when
a row exists with truthy `val` and non-null, nonzero `expire_at ≥ now`,
while an `mget` slot holds the value exactly when the row exists with
truthy `val` and non-null `expire_at > now` (both stated as
biconditionals); in particular a missing key, a NULL `expire_at` (also the
left-join missing marker), a falsy `val` (NULL or the empty payload), an
`expire_at < now`, or — for `get` only — an `expire_at` of `0` is absent,
and a row whose `expire_at` equals `now` is absent in `mget` but returned
by `get`. -/
theorem read_freshness {V : Type} (deser : String → V) (t : List Row)
    (ts : Int) (k : String) :
    (∀ w, (get deser t ts k).1 = some w ↔
       ∃ r e v, findRow t k = some r ∧ r.expire_at = some e ∧
         r.val = some v ∧ e ≠ 0 ∧ v ≠ "" ∧ ts ≤ e ∧ w = deser v) ∧
    (∀ w, mgetSlot deser t ts k = some w ↔
       ∃ r e v, findRow t k = some r ∧ r.expire_at = some e ∧
         r.val = some v ∧ v ≠ "" ∧ ts < e ∧ w = deser v) ∧
    (∀ r, findRow t k = some r → r.expire_at = none →
       (get deser t ts k).1 = none ∧ mgetSlot deser t ts k = none) ∧
    (findRow t k = none →
       (get deser t ts k).1 = none ∧ mgetSlot deser t ts k = none) ∧
    (∀ r e, findRow t k = some r → r.expire_at = some e → e < ts →
       (get deser t ts k).1 = none ∧ mgetSlot deser t ts k = none) ∧
    (∀ r, findRow t k = some r → r.expire_at = some ts →
       mgetSlot deser t ts k = none) ∧
    (∀ r, findRow t k = some r → (r.val = none ∨ r.val = some "") →
       (get deser t ts k).1 = none ∧ mgetSlot deser t ts k = none) ∧
    (∀ r, findRow t k = some r → r.expire_at = some 0 →
       (get deser t ts k).1 = none) := by
  refine ⟨?_, ?_, ?_, ?_, ?_, ?_, ?_, ?_⟩
  · intro w
    constructor
    · intro hw
      rcases hfr : findRow t k with _ | r
      · simp [get, hfr] at hw
      · rcases hre : r.expire_at with _ | e
        · rcases hval : r.val with _ | v <;> simp [get, hfr, hre, hval] at hw
        · rcases hval : r.val with _ | v
          · simp [get, hfr, hre, hval] at hw
          · by_cases h0 : e = 0
            · simp [get, hfr, hre, hval, h0] at hw
            · by_cases hv0 : v = ""
              · simp [get, hfr, hre, hval, hv0] at hw
              · by_cases hlt : e < ts
                · simp [get, hfr, hre, hval, h0, hv0, hlt] at hw
                · refine ⟨r, e, v, rfl, hre, hval, h0, hv0, by omega, ?_⟩
                  have hval2 : (get deser t ts k).1 = some (deser v) := by
                    simp [get, hfr, hre, hval, h0, hv0, hlt]
                  rw [hval2] at hw
                  exact (Option.some.inj hw).symm
    · rintro ⟨r, e, v, hfr, hre, hval, h0, hv0, hle, rfl⟩
      have h2 : ¬ (e < ts) := by omega
      simp [get, hfr, hre, hval, h0, hv0, h2]
  · intro w
    constructor
    · intro hw
      unfold mgetSlot at hw
      rcases hfr : findRow t k with _ | r
      · rw [joinKey_missing t k hfr] at hw
        simp [mgetFresh] at hw
      · rw [joinKey_found t k r hfr] at hw
        rcases hre : r.expire_at with _ | e
        · simp [mgetFresh, hre] at hw
        · rcases hval : r.val with _ | v
          · simp [mgetFresh, truthyStr, hre, hval] at hw
          · by_cases hv0 : v = ""
            · simp [mgetFresh, truthyStr, hre, hval, hv0] at hw
            · by_cases hlt : ts < e
              · refine ⟨r, e, v, rfl, hre, hval, hv0, hlt, ?_⟩
                simp [mgetFresh, truthyStr, hre, hval, hv0, hlt] at hw
                exact hw.symm
              · simp [mgetFresh, truthyStr, hre, hval, hlt] at hw
    · rintro ⟨r, e, v, hfr, hre, hval, hv0, hlt, rfl⟩
      unfold mgetSlot
      rw [joinKey_found t k r hfr]
      simp [mgetFresh, truthyStr, hre, hval, hv0, hlt]
  · intro r hr he
    constructor
    · rcases hval : r.val with _ | v <;> simp [get, hr, he, hval]
    · unfold mgetSlot
      rw [joinKey_found t k r hr]
      simp [mgetFresh, he]
  · intro h
    constructor
    · simp [get, h]
    · unfold mgetSlot
      rw [joinKey_missing t k h]
      simp [mgetFresh]
  · intro r e hr he hlt
    constructor
    · rcases hval : r.val with _ | v
      · simp [get, hr, he, hval]
      · by_cases h0 : e = 0
        · simp [get, hr, he, hval, h0]
        · by_cases hv0 : v = ""
          · simp [get, hr, he, hval, hv0]
          · simp [get, hr, he, hval, h0, hv0, hlt]
    · unfold mgetSlot
      rw [joinKey_found t k r hr]
      have h2 : ¬ (ts < e) := by omega
      simp [mgetFresh, he, h2]
  · intro r hr he
    unfold mgetSlot
    rw [joinKey_found t k r hr]
    simp [mgetFresh, he]
  · intro r hr hval
    constructor
    · rcases hval with hval | hval <;> rcases hre : r.expire_at with _ | e <;>
        simp [get, hr, hre, hval]
    · unfold mgetSlot
      rw [joinKey_found t k r hr]
      rcases hval with hval | hval <;> simp [mgetFresh, truthyStr, hval]
  · intro r hr he
    rcases hval : r.val with _ | v <;> simp [get, hr, he, hval]

/-- C2 witness: a fresh row is returned as present by both read paths,
through the presence direction of each biconditional. -/
theorem read_freshness_witness :
    (get (fun s => s) [⟨"k", some "v", some 1, some 100⟩] 50 "k").1 =
      some "v" ∧
    mgetSlot (fun s => s) [⟨"k", some "v", some 1, some 100⟩] 50 "k" =
      some "v" :=
  ⟨((read_freshness (fun s => s) _ 50 "k").1 "v").mpr
      ⟨⟨"k", some "v", some 1, some 100⟩, 100, "v", by decide, rfl, rfl,
       by decide, by decide, by decide, rfl⟩,
   ((read_freshness (fun s => s) _ 50 "k").2.1 "v").mpr
      ⟨⟨"k", some "v", some 1, some 100⟩, 100, "v", by decide, rfl, rfl,
       by decide, by decide, rfl⟩⟩

/-! ### C6 -/

/-- A fetched slot triggers the sweep exactly when its key has a stored row
whose non-null `expire_at` lies strictly before the read timestamp. -/
theorem rowExpired_joinKey (t : List Row) (k : String) (ts : Int) :
    rowExpired ts (joinKey t k) = true ↔
      ∃ r e, findRow t k = some r ∧ r.expire_at = some e ∧ e < ts := by
  rcases hfr : findRow t k with _ | r
  · rw [joinKey_missing t k hfr]
    simp [rowExpired, hfr]
  · rw [joinKey_found t k r hfr]
    rcases hre : r.expire_at with _ | x
    · simp [rowExpired, hfr, hre]
    · simp [rowExpired, hfr, hre]

/-- C6: the sweep deletes exactly the rows with non-null `expire_at`
strictly below the current timestamp, over the whole space (NULL
`expire_at` rows are never removed), and a (nonempty) `mget` schedules a
sweep exactly when at least one fetched row is expired — a key with no
stored row never triggers it. -/
theorem sweep_spec {V : Type} (deser : String → V) (t : List Row) (ts : Int)
    (ks : List String) (h : ks ≠ []) :
    (∀ r : Row, r ∈ purgeExpired t ts ↔
       r ∈ t ∧ (r.expire_at = none ∨ ∃ e, r.expire_at = some e ∧ ts ≤ e)) ∧
    (∃ slots b, mget deser t ts ks = .ok (slots, b) ∧
       (b = true ↔ ∃ k ∈ ks, ∃ r e, findRow t k = some r ∧
          r.expire_at = some e ∧ e < ts)) := by
  constructor
  · intro r
    unfold purgeExpired
    rw [List.mem_filter]
    rcases hre : r.expire_at with _ | x
    · simp [sqlLtExpire, hre]
    · simp [sqlLtExpire, hre, not_lt]
  · obtain ⟨a, l, rfl⟩ : ∃ a l, ks = a :: l := by
      cases ks with
      | nil => exact absurd rfl h
      | cons a l => exact ⟨a, l, rfl⟩
    refine ⟨((a :: l).map (joinKey t)).map
              (fun r => if mgetFresh ts r then r.val.map deser else none),
            ((a :: l).map (joinKey t)).any (rowExpired ts), rfl, ?_⟩
    rw [List.any_eq_true]
    simp only [List.mem_map]
    constructor
    · rintro ⟨jr, ⟨k, hk, rfl⟩, hexp⟩
      exact ⟨k, hk, (rowExpired_joinKey t k ts).1 hexp⟩
    · rintro ⟨k, hk, hr⟩
      exact ⟨joinKey t k, ⟨k, hk, rfl⟩, (rowExpired_joinKey t k ts).2 hr⟩

/-- C6 witness: a purge over a table with one dead and one never-expiring
row, and a read over one expired and one missing key. -/
theorem sweep_spec_witness :
    (∀ r : Row, r ∈ purgeExpired
        [⟨"old", some "v", some 1, some 10⟩, ⟨"keep", some "w", some 1, none⟩]
        100 ↔
       r ∈ [⟨"old", some "v", some 1, some 10⟩,
            ⟨"keep", some "w", some 1, none⟩] ∧
       (r.expire_at = none ∨ ∃ e, r.expire_at = some e ∧ (100 : Int) ≤ e)) ∧
    (∃ slots b, mget (fun s => s)
        [⟨"old", some "v", some 1, some 10⟩, ⟨"keep", some "w", some 1, none⟩]
        100 ["old", "never"] = .ok (slots, b) ∧
       (b = true ↔ ∃ k ∈ (["old", "never"] : List String), ∃ r e,
          findRow [⟨"old", some "v", some 1, some 10⟩,
                   ⟨"keep", some "w", some 1, none⟩] k = some r ∧
          r.expire_at = some e ∧ e < 100)) :=
  sweep_spec (fun s => s) _ 100 _ (List.cons_ne_nil _ _)

/-! ### mset helper lemmas -/

/-- A pair rejected by the cacheability gate makes the transaction body
throw at once. -/
theorem msetLoop_cons_reject {V : Type} (ser : V → Except Unit String)
    (p : V → Bool) (ts expire : Int) (k : String) (v : V)
    (rest : List (String × V)) (t : List Row) (hv : p v = false) :
    msetLoop ser (some p) ts expire ((k, v) :: rest) t =
      .error (.notCacheable v) := by
  unfold msetLoop
  simp [hv]

/-- A pair accepted by the gate and serialized successfully is upserted and
the loop continues. -/
theorem msetLoop_cons_ok {V : Type} (ser : V → Except Unit String)
    (p : V → Bool) (ts expire : Int) (k : String) (v : V) (s : String)
    (rest : List (String × V)) (t : List Row) (hv : p v = true)
    (hs : ser v = .ok s) :
    msetLoop ser (some p) ts expire ((k, v) :: rest) t =
      msetLoop ser (some p) ts expire rest
        (upsert t ⟨k, some s, some ts, some expire⟩) := by
  conv_lhs => rw [msetLoop]
  simp [hv, hs]

/-- With no cacheability gate, a serializer failure makes the transaction
body throw at once. -/
theorem msetLoop_none_serfail {V : Type} (ser : V → Except Unit String)
    (ts expire : Int) (k : String) (v : V) (rest : List (String × V))
    (t : List Row) (hs : ser v = .error ()) :
    msetLoop ser none ts expire ((k, v) :: rest) t =
      .error .serializeFailed := by
  unfold msetLoop
  simp [hs]

/-- With no cacheability gate, a successfully serialized pair is upserted
and the loop continues. -/
theorem msetLoop_none_ok {V : Type} (ser : V → Except Unit String)
    (ts expire : Int) (k : String) (v : V) (s : String)
    (rest : List (String × V)) (t : List Row) (hs : ser v = .ok s) :
    msetLoop ser none ts expire ((k, v) :: rest) t =
      msetLoop ser none ts expire rest
        (upsert t ⟨k, some s, some ts, some expire⟩) := by
  conv_lhs => rw [msetLoop]
  simp [hs]

/-- When every value serializes and some value is rejected by the gate, the
transaction body throws `notCacheable` at the first rejected value,
whatever the table state. -/
theorem msetLoop_rejects {V : Type} (ser : V → Except Unit String)
    (p : V → Bool) (ts expire : Int) :
    ∀ (pairs : List (String × V)) (t : List Row),
      (∀ pr ∈ pairs, ∃ s, ser pr.2 = .ok s) →
      (∃ pr ∈ pairs, p pr.2 = false) →
      ∃ v, (∃ pr ∈ pairs, pr.2 = v ∧ p v = false) ∧
        msetLoop ser (some p) ts expire pairs t =
          .error (.notCacheable v) := by
  intro pairs
  induction pairs with
  | nil =>
    intro t _ hrej
    simp at hrej
  | cons pr0 rest ih =>
    obtain ⟨k, v⟩ := pr0
    intro t hser hrej
    by_cases hv : p v = false
    · exact ⟨v, ⟨(k, v), by simp, rfl, hv⟩,
        msetLoop_cons_reject ser p ts expire k v rest t hv⟩
    · have hvt : p v = true := by revert hv; cases p v <;> simp
      obtain ⟨s, hs⟩ := hser (k, v) (by simp)
      have hrej' : ∃ pr ∈ rest, p pr.2 = false := by
        rcases hrej with ⟨pr, hmem, hp⟩
        rcases List.mem_cons.1 hmem with heq | hmem'
        · rw [heq] at hp
          rw [hvt] at hp
          cases hp
        · exact ⟨pr, hmem', hp⟩
      obtain ⟨v', hv', hloop⟩ := ih (upsert t ⟨k, some s, some ts, some expire⟩)
        (fun q hq => hser q (List.mem_cons_of_mem _ hq)) hrej'
      refine ⟨v', ?_, ?_⟩
      · rcases hv' with ⟨q, hmem, hqe, hqf⟩
        exact ⟨q, List.mem_cons_of_mem _ hmem, hqe, hqf⟩
      · rw [msetLoop_cons_ok ser p ts expire k v s rest t hvt hs]
        exact hloop

/-- When some value fails to serialize (and no gate is configured), the
transaction body throws the serializer's error, whatever the table state. -/
theorem msetLoop_ser_fails {V : Type} (ser : V → Except Unit String)
    (ts expire : Int) :
    ∀ (pairs : List (String × V)) (t : List Row),
      (∃ pr ∈ pairs, ser pr.2 = .error ()) →
      msetLoop ser none ts expire pairs t = .error .serializeFailed := by
  intro pairs
  induction pairs with
  | nil =>
    intro t hfail
    simp at hfail
  | cons pr0 rest ih =>
    obtain ⟨k, v⟩ := pr0
    intro t hfail
    rcases hsv : ser v with u | s
    · exact msetLoop_none_serfail ser ts expire k v rest t (by rw [hsv])
    · have hfail' : ∃ pr ∈ rest, ser pr.2 = .error () := by
        rcases hfail with ⟨pr, hmem, hp⟩
        rcases List.mem_cons.1 hmem with heq | hmem'
        · rw [heq] at hp
          rw [hsv] at hp
          cases hp
        · exact ⟨pr, hmem', hp⟩
      rw [msetLoop_none_ok ser ts expire k v s rest t hsv]
      exact ih _ hfail'

/-! ### C4 -/

/-- C4: if the configured cacheability predicate rejects the value of some
pair of the batch, `mset` fails with an error identifying a rejected value
and the transaction is rolled back: the table is exactly the pre-call
table, so no row of the batch is visible to any subsequent read. -/
theorem mset_cacheable_rejects_batch {V : Type} (ser : V → Except Unit String)
    (p : V → Bool) (dttl : Int) (kttl : Option Int) (ts : Int)
    (pairs : List (String × V)) (t : List Row)
    (hser : ∀ pr ∈ pairs, ∃ s, ser pr.2 = .ok s)
    (hrej : ∃ pr ∈ pairs, p pr.2 = false) :
    ∃ v, (∃ pr ∈ pairs, pr.2 = v ∧ p v = false) ∧
      mset ser (some p) dttl kttl ts pairs t = (some (.notCacheable v), t) := by
  obtain ⟨v, hv, hloop⟩ := msetLoop_rejects ser p ts (ts + kttl.getD dttl)
    pairs t hser hrej
  refine ⟨v, hv, ?_⟩
  show (match msetLoop ser (some p) ts (ts + kttl.getD dttl) pairs t with
        | .error e => (some e, t)
        | .ok t' => (none, t')) = (some (.notCacheable v), t)
  rw [hloop]

/-- C4 witness: a two-pair batch whose second value is rejected leaves the
empty table empty. -/
theorem mset_cacheable_rejects_batch_witness :
    ∃ v, (∃ pr ∈ ([("a", "x"), ("b", "nope")] : List (String × String)),
            pr.2 = v ∧ (v != "nope") = false) ∧
      mset (fun s => .ok s) (some (fun s => s != "nope")) default_ttl none 5
        [("a", "x"), ("b", "nope")] [] = (some (.notCacheable v), []) :=
  mset_cacheable_rejects_batch (fun s => .ok s) (fun s => s != "nope")
    default_ttl none 5 [("a", "x"), ("b", "nope")] []
    (fun pr _ => ⟨pr.2, rfl⟩)
    ⟨("b", "nope"), by simp, by decide⟩

/-! ### C5 -/

/-- C5: if the serializer fails on some value of the batch, the whole write
fails (the error propagates to the caller) and the transaction is rolled
back: the table is exactly the pre-call table, so the failing key is
neither dropped from the batch nor stored as an absent value. -/
theorem mset_serialize_error_propagates {V : Type}
    (ser : V → Except Unit String) (dttl : Int) (kttl : Option Int)
    (ts : Int) (pairs : List (String × V)) (t : List Row)
    (hfail : ∃ pr ∈ pairs, ser pr.2 = .error ()) :
    mset ser none dttl kttl ts pairs t = (some .serializeFailed, t) := by
  have hloop := msetLoop_ser_fails ser ts (ts + kttl.getD dttl) pairs t hfail
  show (match msetLoop ser none ts (ts + kttl.getD dttl) pairs t with
        | .error e => (some e, t)
        | .ok t' => (none, t')) = (some .serializeFailed, t)
  rw [hloop]

/-- C5 witness: a serializer that rejects the payload `"bad"` aborts the
two-pair batch and leaves the table unchanged. -/
theorem mset_serialize_error_propagates_witness :
    mset (fun v : String => if v == "bad" then .error () else .ok v) none
      default_ttl none 5 [("k1", "ok"), ("k2", "bad")] [] =
      (some .serializeFailed, []) :=
  mset_serialize_error_propagates (fun v : String =>
      if v == "bad" then .error () else .ok v) default_ttl none 5
    [("k1", "ok"), ("k2", "bad")] []
    ⟨("k2", "bad"), by simp, rfl⟩

/-! ### C3 -/

/-- C3 (code bug): at `now = 1000000` ms with `keyTTL = 200` (seconds per
the adapter's own documentation), `mset` stamps both rows of the batch with
the same `created_at = 1000000` and the same `expire_at = 1000200`: the TTL
is added to the millisecond clock without the `* 1000` scaling, so
`expire_at` is `now + ttl`, not the documented `now + ttl * 1000`. -/
theorem mset_expire_not_scaled_to_ms :
    mset (V := String) (fun v => .ok v) none default_ttl (some 200) 1000000
      [("a", "x"), ("b", "y")] [] =
      (none, [⟨"a", some "x", some 1000000, some 1000200⟩,
              ⟨"b", some "y", some 1000000, some 1000200⟩]) ∧
    (1000200 : Int) = 1000000 + 200 ∧
    (1000200 : Int) ≠ 1000000 + 200 * 1000 :=
  ⟨rfl, by decide, by decide⟩

/-! ### C9 -/

/-- C9 counterexample: the empty pattern is falsy in JavaScript, so
`keys("")` takes the no-pattern branch and returns every stored key even
though the empty LIKE pattern matches none of them. -/
theorem keys_empty_pattern_counterexample :
    keys [⟨"a", some "v", some 1, some 10⟩] (some "") = ["a"] ∧
    likeMatch "".toList "a".toList = false :=
  ⟨rfl, rfl⟩

/-- C9 (amended to nonempty patterns): for every nonempty pattern `p`,
`keys(p)` returns exactly the keys of the stored rows whose key LIKE-matches
`p` (`%`/`_`, ASCII case-insensitive), sorted by `created_at`, with no
filtering by expiry; `keys()` with no pattern lists all stored keys,
including expired ones. -/
theorem keys_pattern_spec (t : List Row) (p : String) (hp : p ≠ "") :
    (∃ rows : List Row, keys t (some p) = rows.map Row.key ∧
       rows.Perm (t.filter (fun r => likeMatch p.toList r.key.toList)) ∧
       List.Sorted createdLeP rows) ∧
    keys t none = t.map Row.key := by
  constructor
  · refine ⟨sortByCreated (t.filter
        (fun r => likeMatch p.toList r.key.toList)), ?_, ?_, ?_⟩
    · show (if p == "" then t.map Row.key
            else (sortByCreated (t.filter
              (fun r => likeMatch p.toList r.key.toList))).map Row.key) = _
      rw [if_neg (by simp [hp])]
    · exact List.perm_insertionSort _ _
    · exact List.sorted_insertionSort _ _
  · rfl

/-- A concrete table for the `keys` witness: two `foo`-prefixed rows (one
of them never expiring, one expired) and one non-matching row. -/
def sampleRows : List Row :=
  [⟨"foo1", some "v", some 2, some 10⟩,
   ⟨"bar", some "v", some 1, some 10⟩,
   ⟨"foo0", some "v", some 1, none⟩]

/-- C9 witness: the pattern `foo%` over `sampleRows`. -/
theorem keys_pattern_spec_witness :
    ("foo%" : String) ≠ "" ∧
    ((∃ rows : List Row, keys sampleRows (some "foo%") = rows.map Row.key ∧
        rows.Perm (sampleRows.filter
          (fun r => likeMatch "foo%".toList r.key.toList)) ∧
        List.Sorted createdLeP rows) ∧
     keys sampleRows none = sampleRows.map Row.key) :=
  ⟨by decide, keys_pattern_spec sampleRows "foo%" (by decide)⟩

end SqliteStore
